import Mathlib

/-!
Shallow embedding of cmd/janitor/gcp_janitor.py (kubernetes-sigs/boskos).

External effects (the gcloud CLI) are abstracted as oracles: a listing call
either returns the parsed JSON records or fails like
subprocess.CalledProcessError; a deletion call either succeeds or fails.
Timestamps are modelled as integers (strptime of the fixed-format prefix is
order-preserving), JSON records as structures with optional fields, and the
Python exceptions the janitor distinguishes as an error type threaded through
Except.
-/

/-- Python exception classes that the janitor's except clauses distinguish. -/
inductive PyErr
  | calledProcessError
  | valueError
  | indexError
deriving DecidableEq

/-- The Resource namedtuple (gcp_janitor.py line 30): one catalog entry.
condition is the scope kind (none, or the strings zone / region / global),
managed the managed filter (none, or the strings Yes / No). -/
structure Resource where
  api_version : String
  group : String
  name : String
  subgroup : Option String
  condition : Option String
  managed : Option String
  tolerate : Bool
  bulk_delete : Bool
  preserved_names : Option (List String)
deriving DecidableEq

/-- A listed item as seen by validate_item: the name key is known to be
present (collect checks it before calling validate_item).  The two timestamp
fields hold already-parsed instants. -/
structure Item where
  name : String
  creationTimestamp : Option Int
  createTime : Option Int
  zone : Option String
  region : Option String
  isManaged : Option String
deriving DecidableEq

/-- A raw JSON record from a gcloud list call, before the name check in
collect: every key, the name included, may be absent. -/
structure RawItem where
  name : Option String
  creationTimestamp : Option Int
  createTime : Option Int
  zone : Option String
  region : Option String
  isManaged : Option String
deriving DecidableEq

/-- View a raw record whose name key was checked as an Item. -/
def RawItem.withName (r : RawItem) (n : String) : Item :=
  ⟨n, r.creationTimestamp, r.createTime, r.zone, r.region, r.isManaged⟩

/-- Python truthiness of resource.preserved_names combined with the membership
test: line 249, "resource.preserved_names and item['name'] in
resource.preserved_names". -/
def preserved_match (resource : Resource) (name : String) : Bool :=
  match resource.preserved_names with
  | none => false
  | some l => !l.isEmpty && l.contains name

/-- Line 262: item.get('creationTimestamp', item.get('createTime')). -/
def creation_time (item : Item) : Option Int :=
  match item.creationTimestamp with
  | some t => some t
  | none => item.createTime

/-- Lines 258-274 of validate_item: the clear_all shortcut and the age check.
Raises ValueError when both timestamp keys are absent; otherwise the item is
in scope iff created < age (strict). -/
def check_age (item : Item) (age : Int) (clear_all : Bool) : Except PyErr Bool :=
  if clear_all then Except.ok true
  else
    match creation_time item with
    | none => Except.error PyErr.valueError
    | some created => Except.ok (decide (created < age))

/-- validate_item (lines 235-274): decide whether one listed item is to be
cleaned.  The check order is: preserved names, managed filter (Python
truthiness: a none or empty managed field skips the block), clear_all, age. -/
def validate_item (item : Item) (age : Int) (resource : Resource)
    (clear_all : Bool) : Except PyErr Bool :=
  if preserved_match resource item.name then Except.ok false
  else
    match resource.managed with
    | some m =>
      if m.isEmpty then check_age item age clear_all
      else
        match item.isManaged with
        | none => Except.error PyErr.valueError
        | some im =>
          if m ≠ im then Except.ok false
          else check_age item age clear_all
    | none => check_age item age clear_all

/-- Batch chunking in clear_resources (lines 412-413):
items[idx : idx + rate_limit] for idx in range(0, len(items), rate_limit),
written with the slice items[idx : idx + k] as (items.drop idx).take k and
the index list range(0, n, k) as the first ceil(n / k) multiples of k. -/
def chunk_list {α : Type} (items : List α) (k : Nat) : List (List α) :=
  (List.range ((items.length + k - 1) / k)).map
    (fun i => (items.drop (i * k)).take k)

/-- Chunks actually dispatched by clear_resources for one group: the
configured rate limit is overridden to 1 when bulk_delete is false
(lines 391-392). -/
def deletion_chunks (resource : Resource) (items : List String)
    (rate_limit : Nat) : List (List String) :=
  chunk_list items (if resource.bulk_delete then rate_limit else 1)

/-- Names appearing in any deletion group. -/
def group_names (col : List (String × List String)) : List String :=
  col.flatMap (fun g => g.2)

/-- collections.defaultdict(list) insertion: col[colname].append(name)
(line 353), keeping both key insertion order and per-key append order. -/
def upsert (col : List (String × List String)) (key : String) (v : String) :
    List (String × List String) :=
  match col with
  | [] => [(key, [v])]
  | (k, vs) :: rest =>
    if k = key then (k, vs ++ [v]) :: rest else (k, vs) :: upsert rest key v

/-- Dictionary lookup item[cond] for the condition key (lines 338-342); the
json format string restricts the possible keys to name, creationTimestamp,
createTime, zone, region and isManaged, and the catalog only ever uses the
conditions zone and region here. -/
def item_field (raw : RawItem) (cond : String) : Option String :=
  if cond = "zone" then raw.zone
  else if cond = "region" then raw.region
  else none

/-- item[cond].rsplit('/', 1)[-1] (line 342): the part after the last slash. -/
def rsplit_last (s : String) : String :=
  ((s.splitOn "/").getLast?).getD s

/-- Group-key computation of the collect loop (lines 329-350): the condition
decides the group key, an ok none meaning the item is skipped (continue); the
filestore fallback indexes name.split('/')[3] and raises IndexError when the
segment is absent. -/
def collect_colname (resource : Resource) (raw : RawItem) (name : String) :
    Except PyErr (Option String) :=
  match resource.condition with
  | none => Except.ok (some "")
  | some cond =>
    if cond = "global" then
      if raw.zone.isSome || raw.region.isSome then Except.ok none
      else Except.ok (some "")
    else
      match item_field raw cond with
      | some v => Except.ok (some (rsplit_last v))
      | none =>
        if resource.group = "filestore" then
          match (name.splitOn "/").get? 3 with
          | some seg => Except.ok (some seg)
          | none => Except.error PyErr.indexError
        else Except.ok none

/-- Per-item body of the collect loop (lines 323-353): missing name raises
ValueError; the group key decides skipping; surviving items that
validate_item accepts are appended to their group. -/
def collect_item (age : Int) (resource : Resource) (clear_all : Bool)
    (col : List (String × List String)) (raw : RawItem) :
    Except PyErr (List (String × List String)) :=
  match raw.name with
  | none => Except.error PyErr.valueError
  | some name =>
    match collect_colname resource raw name with
    | Except.error e => Except.error e
    | Except.ok none => Except.ok col
    | Except.ok (some colname) =>
      match validate_item (raw.withName name) age resource clear_all with
      | Except.error e => Except.error e
      | Except.ok true => Except.ok (upsert col colname name)
      | Except.ok false => Except.ok col

/-- The item loop of collect over a listing, threading the group dictionary. -/
def collect_items (age : Int) (resource : Resource) (clear_all : Bool) :
    List RawItem → List (String × List String) →
    Except PyErr (List (String × List String))
  | [], col => Except.ok col
  | raw :: rest, col =>
    match collect_item age resource clear_all col raw with
    | Except.error e => Except.error e
    | Except.ok col2 => collect_items age resource clear_all rest col2

/-- collect (lines 277-354).  The gcloud list call is an oracle: an error
value stands for subprocess.CalledProcessError.  The zone push-down filter
and the command text only affect which records the oracle returns.  The sinks
shortcut (lines 298-299) and the tolerate clause (lines 316-321) both return
the empty group dictionary. -/
def collect (age : Int) (resource : Resource) (clear_all : Bool)
    (listing : Except Unit (List RawItem)) :
    Except PyErr (List (String × List String)) :=
  if resource.name = "sinks" && !clear_all then Except.ok []
  else
    match listing with
    | Except.error _ =>
      if resource.tolerate then Except.ok []
      else Except.error PyErr.calledProcessError
    | Except.ok items => collect_items age resource clear_all items []

/-- clear_resources (lines 373-428), with the deletion calls as an oracle
keyed by group key and chunk.  Every chunk of every group is dispatched; a
failed call appends to errs only when the resource is not tolerant (asyncCall,
lines 366-369); the return value is len(errs). -/
def clear_resources (delete_ok : String → List String → Bool)
    (cols : List (String × List String)) (resource : Resource)
    (rate_limit : Nat) : Nat :=
  (cols.map (fun g =>
    ((deletion_chunks resource g.2 rate_limit).filter
      (fun chunk => !resource.tolerate && !delete_ok g.1 chunk)).length)).sum

/-- External world of the catalog loop: API enablement, the list call per
(api, resource), and success of each deletion call per (api, resource, group
key, chunk). -/
structure CatalogWorld where
  api_enabled : String → Bool
  listing : String → Resource → Except Unit (List RawItem)
  delete_ok : String → Resource → String → List String → Bool

/-- One iteration of the per-resource body of main (lines 676-686): collect,
then clear_resources when the group dictionary is non-empty.  The except
clause catches subprocess.CalledProcessError and ValueError and turns them
into the contribution err |= 1; an IndexError is not caught there and
propagates. -/
def process_spec (w : CatalogWorld) (age : Int) (clear_all : Bool)
    (rate_limit : Nat) (api : String) (res : Resource) : Except PyErr Nat :=
  match collect age res clear_all (w.listing api res) with
  | Except.error PyErr.indexError => Except.error PyErr.indexError
  | Except.error _ => Except.ok 1
  | Except.ok col =>
    Except.ok (if col.isEmpty then 0
               else clear_resources (w.delete_ok api res) col res rate_limit)

/-- Accumulated state of the catalog loop: the specs whose body was entered,
the err value OR-accumulated so far, and the uncaught exception if one
escaped (which abandons the rest of the loop and the final sys.exit). -/
structure CatalogOutcome where
  processed : List (String × Resource)
  err : Nat
  crashed : Option PyErr
deriving DecidableEq

/-- Inner loop of main over the resources of one enabled API. -/
def run_specs (w : CatalogWorld) (age : Int) (clear_all : Bool)
    (rate_limit : Nat) (api : String) : List Resource → CatalogOutcome
  | [] => ⟨[], 0, none⟩
  | res :: rest =>
    match process_spec w age clear_all rate_limit api res with
    | Except.error e => ⟨[(api, res)], 0, some e⟩
    | Except.ok n =>
      let o := run_specs w age clear_all rate_limit api rest
      ⟨(api, res) :: o.processed, n ||| o.err, o.crashed⟩

/-- Outer loop of main over RESOURCES_BY_API (lines 671-686); dict iteration
follows insertion order, modelled as an association list.  A disabled API is
skipped whole. -/
def run_catalog (w : CatalogWorld) (age : Int) (clear_all : Bool)
    (rate_limit : Nat) : List (String × List Resource) → CatalogOutcome
  | [] => ⟨[], 0, none⟩
  | (api, resources) :: rest =>
    if w.api_enabled api then
      let o1 := run_specs w age clear_all rate_limit api resources
      match o1.crashed with
      | some _ => o1
      | none =>
        let o2 := run_catalog w age clear_all rate_limit rest
        ⟨o1.processed ++ o2.processed, o1.err ||| o2.err, o2.crashed⟩
    else run_catalog w age clear_all rate_limit rest

/-- All specs of enabled APIs, in catalog order. -/
def enabled_specs (w : CatalogWorld) (catalog : List (String × List Resource)) :
    List (String × Resource) :=
  (catalog.filter (fun a => w.api_enabled a.1)).flatMap
    (fun a => a.2.map (fun r => (a.1, r)))

/-- A raw cluster record from a gcloud container clusters list call. -/
structure RawCluster where
  name : Option String
  createTime : Option Int
  zone : Option String
  region : Option String
deriving DecidableEq

/-- External world of the cluster sweep: the list call per endpoint and the
success of each cluster deletion per (endpoint, cluster name). -/
structure ClusterWorld where
  clusters : String → Except Unit (List RawCluster)
  delete_ok : String → String → Bool

/-- The fixed endpoint list of clean_gke_cluster (lines 514-519). -/
def gke_endpoints : List String :=
  ["https://test-container.sandbox.googleapis.com/",
   "https://staging-container.sandbox.googleapis.com/",
   "https://staging2-container.sandbox.googleapis.com/",
   "https://container.googleapis.com/"]

/-- Per-cluster body of clean_gke_cluster (lines 545-575): missing name or
createTime raises ValueError, as does missing both zone and region; a stale
cluster's deletion is dispatched with tolerate False, so its failure is
counted. -/
def gke_check_cluster (w : ClusterWorld) (age : Int) (endpoint : String)
    (acc : Nat) (item : RawCluster) : Except PyErr Nat :=
  match item.name, item.createTime with
  | some n, some created =>
    if item.zone.isNone && item.region.isNone then Except.error PyErr.valueError
    else if created < age then
      Except.ok (acc + (if w.delete_ok endpoint n then 0 else 1))
    else Except.ok acc
  | _, _ => Except.error PyErr.valueError

/-- The cluster loop of one endpoint, threading the failed-deletion count. -/
def gke_items_pass (w : ClusterWorld) (age : Int) (endpoint : String) :
    List RawCluster → Nat → Except PyErr Nat
  | [], acc => Except.ok acc
  | item :: rest, acc =>
    match gke_check_cluster w age endpoint acc item with
    | Except.error e => Except.error e
    | Except.ok acc2 => gke_items_pass w age endpoint rest acc2

/-- One endpoint of clean_gke_cluster: an unreachable listing is tolerated
(lines 538-543, continue) and contributes nothing; otherwise the cluster loop
runs and may raise. -/
def gke_endpoint_pass (w : ClusterWorld) (age : Int) (endpoint : String) :
    Except PyErr Nat :=
  match w.clusters endpoint with
  | Except.error _ => Except.ok 0
  | Except.ok items => gke_items_pass w age endpoint items 0

/-- Result of the endpoint loop: the endpoints whose iteration was entered,
the total failed-deletion count, and the exception that escaped the loop if
any (in which case the remaining endpoints are never visited and the count is
discarded by the caller). -/
structure GkeOutcome where
  visited : List String
  errs : Nat
  fatal : Option PyErr
deriving DecidableEq

/-- The endpoint loop of clean_gke_cluster (lines 523-579).  errs is shared
across endpoints; the function's return value is len(errs) > 0 when no
exception escapes. -/
def gke_sweep (w : ClusterWorld) (age : Int) : List String → GkeOutcome
  | [] => ⟨[], 0, none⟩
  | e :: rest =>
    match gke_endpoint_pass w age e with
    | Except.error pe => ⟨[e], 0, some pe⟩
    | Except.ok n =>
      let o := gke_sweep w age rest
      ⟨e :: o.visited, n + o.errs, o.fatal⟩

/-- A raw subnet record from the subnet list call. -/
structure RawSubnet where
  name : Option String
  region : Option String
deriving DecidableEq

/-- External world of clean_secondary_ip_ranges: the subnet list call, the
describe call per (subnet name, region) — an ok none stands for a falsy JSON
or one without the secondaryIpRanges key, each range element being its
optional rangeName — and the update call's success. -/
structure SubnetWorld where
  list_subnets : Except Unit (List RawSubnet)
  describe : String → String → Except Unit (Option (List (Option String)))
  update_ok : String → String → Bool

/-- Subnet record parsing (lines 454-464): missing name or region key raises
ValueError, as does an empty name or an empty trailing region segment. -/
def parse_subnet (item : RawSubnet) : Except PyErr (String × String) :=
  match item.name with
  | none => Except.error PyErr.valueError
  | some name =>
    match item.region with
    | none => Except.error PyErr.valueError
    | some r =>
      let region := rsplit_last r
      if region.isEmpty || name.isEmpty then Except.error PyErr.valueError
      else Except.ok (name, region)

/-- Per-subnet body (lines 467-507): a failed describe is tolerated
(continue); a range without rangeName raises ValueError; a failed update is
tolerated (continue). -/
def clean_subnet (w : SubnetWorld) (s : String × String) : Except PyErr Unit :=
  match w.describe s.1 s.2 with
  | Except.error _ => Except.ok ()
  | Except.ok none => Except.ok ()
  | Except.ok (some ranges) =>
    if ranges.any (fun r => r.isNone) then Except.error PyErr.valueError
    else Except.ok ()

/-- clean_secondary_ip_ranges (lines 431-507).  A failed subnet list call is
logged with the word continue but then re-raised (lines 446-450), so it
escapes as subprocess.CalledProcessError. -/
def clean_secondary_ip_ranges (w : SubnetWorld) : Except PyErr Unit :=
  match w.list_subnets with
  | Except.error _ => Except.error PyErr.calledProcessError
  | Except.ok items => do
    let subnets ← items.mapM parse_subnet
    let _ ← subnets.mapM (clean_subnet w)
    pure ()

/-- All external dependencies of one janitor run. -/
structure MainWorld where
  subnets : SubnetWorld
  gke : ClusterWorld
  catalog_world : CatalogWorld

/-- How the process ends: sys.exit(err) delivers err % 256 to the operating
system; an uncaught exception aborts with a traceback instead. -/
inductive RunResult
  | exited (status : Nat)
  | crashed (e : PyErr)
deriving DecidableEq

/-- Observable outcome of main: whether the cluster sweep was reached, the
endpoints its loop entered, the catalog specs whose body was entered, the err
value handed to sys.exit (0 when it is never reached), and the run result. -/
structure MainOutcome where
  cluster_sweep_ran : Bool
  endpoints_visited : List String
  processed : List (String × Resource)
  err_value : Nat
  result : RunResult
deriving DecidableEq

/-- The catalog phase and final sys.exit of main (lines 669-688), entered
with the err value accumulated before the loop. -/
def main_catalog_phase (w : MainWorld) (catalog : List (String × List Resource))
    (age : Int) (clear_all : Bool) (rate_limit : Nat) (err0 : Nat)
    (visited : List String) : MainOutcome :=
  match (run_catalog w.catalog_world age clear_all rate_limit catalog).crashed with
  | some e =>
    ⟨true, visited,
     (run_catalog w.catalog_world age clear_all rate_limit catalog).processed, 0,
     RunResult.crashed e⟩
  | none =>
    ⟨true, visited,
     (run_catalog w.catalog_world age clear_all rate_limit catalog).processed,
     err0 ||| (run_catalog w.catalog_world age clear_all rate_limit catalog).err,
     RunResult.exited
       ((err0 ||| (run_catalog w.catalog_world age clear_all rate_limit catalog).err)
         % 256)⟩

/-- The cluster sweep phase of main (lines 661-667): only a ValueError is
caught there (err |= 1); the normal return folds the boolean len(errs) > 0
into err. -/
def main_gke_phase (w : MainWorld) (catalog : List (String × List Resource))
    (age : Int) (clear_all : Bool) (rate_limit : Nat) : MainOutcome :=
  match (gke_sweep w.gke age gke_endpoints).fatal with
  | some PyErr.valueError =>
    main_catalog_phase w catalog age clear_all rate_limit (0 ||| 1)
      (gke_sweep w.gke age gke_endpoints).visited
  | some e =>
    ⟨true, (gke_sweep w.gke age gke_endpoints).visited, [], 0,
     RunResult.crashed e⟩
  | none =>
    main_catalog_phase w catalog age clear_all rate_limit
      (0 ||| (if (gke_sweep w.gke age gke_endpoints).errs > 0 then 1 else 0))
      (gke_sweep w.gke age gke_endpoints).visited

/-- main (lines 626-688) for a run with no service account and no quota
project flag.  The subnet cleaner is tried first with only ValueError caught
(lines 655-659): a subprocess.CalledProcessError escaping it aborts the run
before the cluster sweep and the catalog loop. -/
def main_model (w : MainWorld) (catalog : List (String × List Resource))
    (age : Int) (clear_all : Bool) (rate_limit : Nat) : MainOutcome :=
  match clean_secondary_ip_ranges w.subnets with
  | Except.error PyErr.valueError =>
    main_gke_phase w catalog age clear_all rate_limit
  | Except.ok _ => main_gke_phase w catalog age clear_all rate_limit
  | Except.error e => ⟨false, [], [], 0, RunResult.crashed e⟩

/-- Ceiling-division step: for positive n the chunk count is one more than
the chunk count of n - 1 elements shifted. -/
theorem ceil_div_succ (k n : Nat) (hk : 1 ≤ k) (hn : 1 ≤ n) :
    (n + k - 1) / k = (n - 1) / k + 1 := by
  have h : n + k - 1 = (n - 1) + k := by omega
  rw [h, Nat.add_div_right _ hk]

/-- Chunk count of a non-empty list is one more than the chunk count of the
list with its first k elements removed. -/
theorem chunk_count_cons {α : Type} (k : Nat) (hk : 1 ≤ k) (l : List α)
    (hl : l ≠ []) :
    (l.length + k - 1) / k = ((l.drop k).length + k - 1) / k + 1 := by
  have hn : 1 ≤ l.length := List.length_pos.mpr hl
  rw [List.length_drop]
  rcases le_or_lt l.length k with h | h
  · have h0 : l.length - k = 0 := by omega
    rw [h0, ceil_div_succ k l.length hk hn]
    rw [Nat.div_eq_of_lt (by omega : l.length - 1 < k)]
    rw [Nat.div_eq_of_lt (by omega : 0 + k - 1 < k)]
  · rw [ceil_div_succ k l.length hk hn,
        ceil_div_succ k (l.length - k) hk (by omega)]
    have h1 : l.length - 1 = (l.length - 1 - k) + k := by omega
    rw [h1, Nat.add_div_right _ hk]
    have h2 : l.length - k - 1 = l.length - 1 - k := by omega
    rw [h2]

theorem chunk_list_nil {α : Type} (k : Nat) :
    chunk_list ([] : List α) k = [] := by
  unfold chunk_list
  have h : (List.length ([] : List α) + k - 1) / k = 0 := by
    simp only [List.length_nil, Nat.zero_add]
    rcases Nat.eq_zero_or_pos k with h | h
    · subst h; rfl
    · exact Nat.div_eq_of_lt (by omega)
  rw [h]; rfl

/-- The range-of-slices form of chunking unfolds like a take-drop recursion. -/
theorem chunk_list_cons {α : Type} (k : Nat) (hk : 1 ≤ k) (l : List α)
    (hl : l ≠ []) :
    chunk_list l k = l.take k :: chunk_list (l.drop k) k := by
  unfold chunk_list
  rw [chunk_count_cons k hk l hl, List.range_succ_eq_map, List.map_cons,
      List.map_map]
  refine congrArg₂ List.cons (by simp) ?_
  have hf : ((fun i => ((l.drop (i * k)).take k)) ∘ Nat.succ)
      = fun i => (((l.drop k).drop (i * k)).take k) := by
    funext i
    simp only [Function.comp, List.drop_drop, Nat.succ_mul]
    rw [Nat.add_comm (i * k) k, Nat.add_comm k (i * k)]
  rw [hf]

theorem chunk_list_length {α : Type} (items : List α) (k : Nat) :
    (chunk_list items k).length = (items.length + k - 1) / k := by
  simp [chunk_list]

/-- Concatenating the chunks in order reproduces the original list. -/
theorem chunk_list_flatten {α : Type} (k : Nat) (hk : 1 ≤ k) (l : List α) :
    (chunk_list l k).flatten = l := by
  generalize hn : l.length = n
  induction n using Nat.strong_induction_on generalizing l with
  | _ n ih =>
    match l with
    | [] => simp [chunk_list_nil]
    | a :: t =>
      rw [chunk_list_cons k hk _ (by simp), List.flatten_cons]
      rw [ih ((a :: t).drop k).length
            (by rw [List.length_drop]; subst hn; simp; omega) _ rfl]
      exact List.take_append_drop k _

/-- Every chunk has at most k elements and none is empty. -/
theorem chunk_list_mem {α : Type} (k : Nat) (hk : 1 ≤ k) (l : List α)
    (c : List α) (hc : c ∈ chunk_list l k) : c.length ≤ k ∧ c ≠ [] := by
  unfold chunk_list at hc
  rcases List.mem_map.mp hc with ⟨i, hi, rfl⟩
  rw [List.mem_range] at hi
  have hik : i * k < l.length := by
    have h2 : (i + 1) * k ≤ ((l.length + k - 1) / k) * k :=
      Nat.mul_le_mul_right k hi
    have h3 : ((l.length + k - 1) / k) * k ≤ l.length + k - 1 :=
      Nat.div_mul_le_self _ k
    have h4 := Nat.le_trans h2 h3
    rw [Nat.succ_mul] at h4
    omega
  constructor
  · simp [List.length_take]
  · have hpos : 0 < ((l.drop (i * k)).take k).length := by
      simp only [List.length_take, List.length_drop]
      omega
    exact List.length_pos.mp hpos

/-- Every chunk except the final one has exactly k elements. -/
theorem chunk_list_dropLast {α : Type} (k : Nat) (hk : 1 ≤ k) (l : List α) :
    ∀ c ∈ (chunk_list l k).dropLast, c.length = k := by
  generalize hn : l.length = n
  induction n using Nat.strong_induction_on generalizing l with
  | _ n ih =>
    match l with
    | [] => simp [chunk_list_nil]
    | a :: t =>
      rw [chunk_list_cons k hk _ (by simp)]
      by_cases hd : (a :: t).drop k = []
      · rw [hd, chunk_list_nil]
        simp
      · have hcons := chunk_list_cons k hk _ hd
        rw [hcons, List.dropLast_cons₂]
        intro c hc
        rcases List.mem_cons.mp hc with rfl | hc
        · have hlen : k < (a :: t).length := by
            by_contra hcon
            exact hd (List.drop_eq_nil_of_le (by omega))
          simp only [List.length_take]
          omega
        · rw [← hcons] at hc
          exact ih ((a :: t).drop k).length
            (by rw [List.length_drop]; subst hn; simp; omega) _ rfl c hc

/-- Helper: a preserved name short-circuits validate_item to out of scope. -/
theorem validate_item_of_preserved (item : Item) (age : Int)
    (resource : Resource) (clear_all : Bool)
    (h : preserved_match resource item.name = true) :
    validate_item item age resource clear_all = Except.ok false := by
  simp [validate_item, h]

theorem group_names_cons (k : String) (vs : List String)
    (rest : List (String × List String)) :
    group_names ((k, vs) :: rest) = vs ++ group_names rest := by
  simp [group_names]

theorem group_names_upsert (col : List (String × List String))
    (key v nm : String) (hv : v ≠ nm) (h : nm ∉ group_names col) :
    nm ∉ group_names (upsert col key v) := by
  induction col with
  | nil =>
    simp [upsert, group_names]
    exact fun hc => hv hc.symm
  | cons p rest ih =>
    obtain ⟨k, vs⟩ := p
    rw [group_names_cons] at h
    simp only [List.mem_append] at h
    push_neg at h
    by_cases hk : k = key
    · simp only [upsert, if_pos hk, group_names_cons]
      intro hc
      rcases List.mem_append.mp hc with hc | hc
      · rcases List.mem_append.mp hc with hc | hc
        · exact h.1 hc
        · simp at hc; exact hv hc.symm
      · exact h.2 hc
    · simp only [upsert, if_neg hk, group_names_cons]
      intro hc
      rcases List.mem_append.mp hc with hc | hc
      · exact h.1 hc
      · exact ih h.2 hc

theorem collect_item_preserved (age : Int) (resource : Resource)
    (clear_all : Bool) (nm : String) (hp : preserved_match resource nm = true)
    (col col2 : List (String × List String)) (raw : RawItem)
    (h : collect_item age resource clear_all col raw = Except.ok col2)
    (hnm : nm ∉ group_names col) : nm ∉ group_names col2 := by
  unfold collect_item at h
  split at h
  · cases h
  · rename_i name hname
    split at h
    · cases h
    · injection h with h; subst h; exact hnm
    · rename_i colname hcol
      split at h
      · cases h
      · rename_i hval
        injection h with h
        subst h
        have hne : name ≠ nm := by
          intro hcon
          subst hcon
          rw [validate_item_of_preserved _ age resource clear_all hp] at hval
          cases hval
        exact group_names_upsert col colname name nm hne hnm
      · injection h with h; subst h; exact hnm

theorem collect_items_preserved (age : Int) (resource : Resource)
    (clear_all : Bool) (nm : String)
    (hp : preserved_match resource nm = true) :
    ∀ (items : List RawItem) (col col2 : List (String × List String)),
      collect_items age resource clear_all items col = Except.ok col2 →
      nm ∉ group_names col → nm ∉ group_names col2 := by
  intro items
  induction items with
  | nil =>
    intro col col2 h hn
    unfold collect_items at h
    injection h with h
    subst h
    exact hn
  | cons raw rest ih =>
    intro col col2 h hn
    unfold collect_items at h
    split at h
    · cases h
    · rename_i mid hmid
      exact ih _ _ h (collect_item_preserved age resource clear_all nm hp _ _ _ hmid hn)

theorem collect_preserved (age : Int) (resource : Resource) (clear_all : Bool)
    (nm : String) (hp : preserved_match resource nm = true)
    (listing : Except Unit (List RawItem))
    (col : List (String × List String))
    (h : collect age resource clear_all listing = Except.ok col) :
    nm ∉ group_names col := by
  unfold collect at h
  split at h
  · injection h with h; subst h; simp [group_names]
  · split at h
    · split at h
      · injection h with h; subst h; simp [group_names]
      · cases h
    · rename_i items
      exact collect_items_preserved age resource clear_all nm hp items [] col h
        (by simp [group_names])

/-- Catalog entry for logging sinks (line 91). -/
def logging_sinks : Resource :=
  ⟨"", "logging", "sinks", none, none, none, false, false,
   some ["_Default", "_Required"]⟩

/-- Catalog entry for pubsub topics (lines 97-99). -/
def pubsub_topics : Resource :=
  ⟨"", "pubsub", "topics", none, none, none, false, true,
   some ["container-analysis-notes-v1", "container-analysis-notes-v1beta1",
         "container-analysis-occurrences-v1",
         "container-analysis-occurrences-v1beta1"]⟩

/-- Catalog entry for compute instances (line 48). -/
def compute_instances : Resource :=
  ⟨"", "compute", "instances", none, some "zone", none, false, true, none⟩

/-- Catalog entry for zonal managed instance groups (line 76). -/
def instance_groups_zone_managed : Resource :=
  ⟨"", "compute", "instance-groups", none, some "zone", some "Yes", false,
   true, none⟩

/-- Catalog entry for pubsub subscriptions (line 96). -/
def pubsub_subscriptions : Resource :=
  ⟨"", "pubsub", "subscriptions", none, none, none, false, true, none⟩

/-- The branch condition of the managed-filter block of validate_item
(lines 252-255) passing: a falsy managed field, or a present and matching
isManaged value. -/
def managed_check (resource : Resource) (item : Item) : Bool :=
  match resource.managed with
  | none => true
  | some m => m.isEmpty || item.isManaged == some m

/-- C1: for every resource spec with a non-empty preservedNames set and every
listed item whose name is in preservedNames, validate_item returns out of
scope, and the name appears in no deletion group that collect produces, for
every age cutoff, managed state and clear-all flag. -/
theorem preserved_names_never_candidates (item : Item) (age : Int)
    (resource : Resource) (clear_all : Bool) (l : List String)
    (hp : resource.preserved_names = some l) (hl : l ≠ [])
    (hmem : item.name ∈ l) :
    validate_item item age resource clear_all = Except.ok false ∧
    ∀ listing col, collect age resource clear_all listing = Except.ok col →
      item.name ∉ group_names col := by
  have hpm : preserved_match resource item.name = true := by
    simp only [preserved_match, hp, Bool.and_eq_true, Bool.not_eq_true']
    exact ⟨by simpa [List.isEmpty_iff] using hl, by simpa using hmem⟩
  exact ⟨validate_item_of_preserved _ _ _ _ hpm,
         fun listing col h =>
           collect_preserved age resource clear_all _ hpm listing col h⟩

theorem preserved_names_never_candidates_witness :
    logging_sinks.preserved_names = some ["_Default", "_Required"] ∧
    "_Default" ∈ ["_Default", "_Required"] ∧
    validate_item ⟨"_Default", some 0, none, none, none, none⟩ 100
      logging_sinks true = Except.ok false :=
  ⟨rfl, by decide,
   (preserved_names_never_candidates ⟨"_Default", some 0, none, none, none, none⟩
      100 logging_sinks true ["_Default", "_Required"] rfl (by decide)
      (by decide)).1⟩

/-- C2: for a candidate that is neither preserved nor rejected by the managed
filter, clear-all mode is always in scope; otherwise a missing creation
timestamp raises ValueError and presence of one makes the candidate in scope
exactly when it is strictly older than the cutoff. -/
theorem clear_all_and_age_cutoff (item : Item) (age : Int)
    (resource : Resource)
    (hpres : preserved_match resource item.name = false)
    (hman : managed_check resource item = true) :
    validate_item item age resource true = Except.ok true ∧
    (creation_time item = none →
      validate_item item age resource false = Except.error PyErr.valueError) ∧
    (∀ t, creation_time item = some t →
      validate_item item age resource false = Except.ok (decide (t < age))) := by
  have hva : ∀ clear_all, validate_item item age resource clear_all
      = check_age item age clear_all := by
    intro clear_all
    unfold validate_item
    rw [hpres]
    simp only [Bool.false_eq_true, if_false]
    cases hm : resource.managed with
    | none => rfl
    | some m =>
      unfold managed_check at hman
      rw [hm] at hman
      dsimp only
      by_cases hme : m.isEmpty
      · rw [if_pos hme]
      · rw [if_neg hme]
        simp only [hme, Bool.false_or, beq_iff_eq] at hman
        rw [hman]
        simp
  refine ⟨?_, ?_, ?_⟩
  · rw [hva true]; rfl
  · intro hct; rw [hva false]; unfold check_age; rw [hct]; rfl
  · intro t hct; rw [hva false]; unfold check_age; rw [hct]; rfl

theorem clear_all_and_age_cutoff_witness :
    preserved_match pubsub_subscriptions "sub1" = false ∧
    managed_check pubsub_subscriptions ⟨"sub1", none, none, none, none, none⟩ = true ∧
    validate_item ⟨"sub1", none, none, none, none, none⟩ 100
      pubsub_subscriptions false = Except.error PyErr.valueError :=
  ⟨by decide, by decide,
   (clear_all_and_age_cutoff ⟨"sub1", none, none, none, none, none⟩ 100
      pubsub_subscriptions (by decide) (by decide)).2.1 rfl⟩

/-- C3: with a truthy managed filter and a non-preserved item, a missing
isManaged key raises ValueError, a mismatching value is out of scope, and a
matching value defers entirely to the age check. -/
theorem managed_filter_contract (item : Item) (age : Int)
    (resource : Resource) (clear_all : Bool) (m : String)
    (hpres : preserved_match resource item.name = false)
    (hman : resource.managed = some m) (hm : m.isEmpty = false) :
    (item.isManaged = none →
      validate_item item age resource clear_all = Except.error PyErr.valueError) ∧
    (∀ im, item.isManaged = some im → im ≠ m →
      validate_item item age resource clear_all = Except.ok false) ∧
    (item.isManaged = some m →
      validate_item item age resource clear_all = check_age item age clear_all) := by
  unfold validate_item
  rw [hpres, hman]
  simp only [Bool.false_eq_true, if_false]
  rw [if_neg (by simp [hm])]
  refine ⟨?_, ?_, ?_⟩
  · intro h; rw [h]
  · intro im him hne; rw [him]; simp [Ne.symm hne]
  · intro h; rw [h]; simp

theorem managed_filter_contract_witness :
    instance_groups_zone_managed.managed = some "Yes" ∧
    validate_item ⟨"mig-a", some 0, none, some "us-central1-b", none, none⟩ 50
      instance_groups_zone_managed false = Except.error PyErr.valueError :=
  ⟨rfl,
   (managed_filter_contract ⟨"mig-a", some 0, none, some "us-central1-b", none, none⟩
      50 instance_groups_zone_managed false "Yes" (by decide) rfl (by decide)).1 rfl⟩

/-- C10: the preservation check runs strictly before the managed-field
validation, so a preserved item missing isManaged is out of scope with no
error even under a truthy managed filter. -/
theorem preserved_check_precedes_managed (item : Item) (age : Int)
    (resource : Resource) (clear_all : Bool) (m : String) (l : List String)
    (_hman : resource.managed = some m) (_hm : m.isEmpty = false)
    (hp : resource.preserved_names = some l) (hl : l ≠ [])
    (hmem : item.name ∈ l) (_hno : item.isManaged = none) :
    validate_item item age resource clear_all = Except.ok false := by
  apply validate_item_of_preserved
  simp only [preserved_match, hp, Bool.and_eq_true, Bool.not_eq_true']
  exact ⟨by simpa [List.isEmpty_iff] using hl, by simpa using hmem⟩

theorem preserved_check_precedes_managed_witness :
    (⟨"", "compute", "instance-groups", none, some "zone", some "Yes", false,
      true, some ["keep-group"]⟩ : Resource).managed = some "Yes" ∧
    validate_item ⟨"keep-group", none, none, none, none, none⟩ 7
      ⟨"", "compute", "instance-groups", none, some "zone", some "Yes", false,
       true, some ["keep-group"]⟩ false = Except.ok false :=
  ⟨rfl,
   preserved_check_precedes_managed ⟨"keep-group", none, none, none, none, none⟩
     7 _ false "Yes" ["keep-group"] rfl (by decide) rfl (by decide) (by decide)
     rfl⟩

/-- C4: with bulk deletion, chunking N names at batch size k yields
ceil(N / k) chunks, all of size k except a possibly shorter (but non-empty)
final one, and concatenating them in order reproduces the name sequence. -/
theorem batch_chunking_exact (resource : Resource) (items : List String)
    (k : Nat) (hb : resource.bulk_delete = true) (hk : 1 ≤ k) :
    (deletion_chunks resource items k).length = (items.length + k - 1) / k ∧
    (∀ c ∈ (deletion_chunks resource items k).dropLast, c.length = k) ∧
    (∀ c ∈ deletion_chunks resource items k, c.length ≤ k ∧ c ≠ []) ∧
    (deletion_chunks resource items k).flatten = items := by
  unfold deletion_chunks
  rw [hb, if_pos rfl]
  exact ⟨chunk_list_length items k, chunk_list_dropLast k hk items,
         fun c hc => chunk_list_mem k hk items c hc,
         chunk_list_flatten k hk items⟩

theorem batch_chunking_exact_witness :
    pubsub_topics.bulk_delete = true ∧
    deletion_chunks pubsub_topics ["i1", "i2", "i3", "i4", "i5"] 2
      = [["i1", "i2"], ["i3", "i4"], ["i5"]] ∧
    (deletion_chunks pubsub_topics ["i1", "i2", "i3", "i4", "i5"] 2).flatten
      = ["i1", "i2", "i3", "i4", "i5"] :=
  ⟨rfl, by decide,
   (batch_chunking_exact pubsub_topics ["i1", "i2", "i3", "i4", "i5"] 2 rfl
      (by decide)).2.2.2⟩

/-- C5: with bulk_delete false every dispatched chunk has exactly one name,
whatever rate limit was configured. -/
theorem non_bulk_chunk_size_one (resource : Resource) (items : List String)
    (rate_limit : Nat) (hb : resource.bulk_delete = false) :
    ∀ c ∈ deletion_chunks resource items rate_limit, c.length = 1 := by
  intro c hc
  unfold deletion_chunks at hc
  rw [hb] at hc
  simp only [Bool.false_eq_true, if_false] at hc
  have h := chunk_list_mem 1 (le_refl 1) items c hc
  have h2 := List.length_pos.mpr h.2
  omega

theorem non_bulk_chunk_size_one_witness :
    logging_sinks.bulk_delete = false ∧
    deletion_chunks logging_sinks ["s1", "s2", "s3"] 50
      = [["s1"], ["s2"], ["s3"]] ∧
    ∀ c ∈ deletion_chunks logging_sinks ["s1", "s2", "s3"] 50, c.length = 1 :=
  ⟨rfl, by decide,
   non_bulk_chunk_size_one logging_sinks ["s1", "s2", "s3"] 50 rfl⟩

/-- An Except value carrying the one exception main's per-spec clause does
not catch. -/
def is_index_error {α : Type} : Except PyErr α → Bool
  | Except.error PyErr.indexError => true
  | _ => false

/-- An Except value carrying one of the exceptions main's per-spec clause
catches: subprocess.CalledProcessError or ValueError. -/
def is_caught_error {α : Type} : Except PyErr α → Bool
  | Except.error PyErr.calledProcessError => true
  | Except.error PyErr.valueError => true
  | _ => false

/-- process_spec can only raise IndexError: everything else is caught. -/
theorem process_spec_error_index (w : CatalogWorld) (age : Int)
    (clear_all : Bool) (rate_limit : Nat) (api : String) (res : Resource)
    (e : PyErr)
    (h : process_spec w age clear_all rate_limit api res = Except.error e) :
    e = PyErr.indexError := by
  unfold process_spec at h
  split at h
  · injection h with h; exact h.symm
  · cases h
  · cases h

/-- A caught collect failure contributes exactly err |= 1. -/
theorem process_spec_caught (w : CatalogWorld) (age : Int) (clear_all : Bool)
    (rate_limit : Nat) (api : String) (res : Resource)
    (h : is_caught_error (collect age res clear_all (w.listing api res)) = true) :
    process_spec w age clear_all rate_limit api res = Except.ok 1 := by
  unfold process_spec
  cases hc : collect age res clear_all (w.listing api res) with
  | ok col => rw [hc] at h; cases h
  | error e =>
    cases e with
    | indexError => rw [hc] at h; cases h
    | calledProcessError => rfl
    | valueError => rfl

/-- Soundness of the inner spec loop: with no uncaught exception, every spec
of the API is processed in order and every set bit of a spec's contribution
is set in the accumulated err. -/
theorem run_specs_sound (w : CatalogWorld) (age : Int) (clear_all : Bool)
    (rate_limit : Nat) (api : String) (rs : List Resource)
    (h : ∀ r ∈ rs,
      is_index_error (process_spec w age clear_all rate_limit api r) = false) :
    (run_specs w age clear_all rate_limit api rs).crashed = none ∧
    (run_specs w age clear_all rate_limit api rs).processed
      = rs.map (fun r => (api, r)) ∧
    ∀ r ∈ rs, ∀ n,
      process_spec w age clear_all rate_limit api r = Except.ok n →
      ∀ i, n.testBit i = true →
        ((run_specs w age clear_all rate_limit api rs).err).testBit i = true := by
  induction rs with
  | nil => exact ⟨rfl, rfl, by simp⟩
  | cons r rest ih =>
    have hr := h r (List.mem_cons_self r rest)
    cases hps : process_spec w age clear_all rate_limit api r with
    | error e =>
      have he := process_spec_error_index w age clear_all rate_limit api r e hps
      subst he
      rw [hps] at hr
      cases hr
    | ok n =>
      have ihr := ih (fun r hmem => h r (List.mem_cons_of_mem _ hmem))
      simp only [run_specs, hps]
      refine ⟨ihr.1, by rw [ihr.2.1]; rfl, ?_⟩
      intro r2 hmem n2 hps2 i hbit
      rcases List.mem_cons.mp hmem with rfl | hmem
      · rw [hps] at hps2
        injection hps2 with hn
        subst hn
        rw [Nat.testBit_lor, hbit]
        rfl
      · rw [Nat.testBit_lor, ihr.2.2 r2 hmem n2 hps2 i hbit, Bool.or_true]

theorem enabled_specs_cons_enabled (w : CatalogWorld) (api : String)
    (rs : List Resource) (rest : List (String × List Resource))
    (h : w.api_enabled api = true) :
    enabled_specs w ((api, rs) :: rest)
      = rs.map (fun r => (api, r)) ++ enabled_specs w rest := by
  simp [enabled_specs, List.filter_cons, h]

theorem enabled_specs_cons_disabled (w : CatalogWorld) (api : String)
    (rs : List Resource) (rest : List (String × List Resource))
    (h : w.api_enabled api = false) :
    enabled_specs w ((api, rs) :: rest) = enabled_specs w rest := by
  simp [enabled_specs, List.filter_cons, h]

/-- Soundness of the catalog loop: with no uncaught exception anywhere, every
spec of every enabled API is processed in catalog order and every set bit of
any spec's contribution is set in the accumulated err. -/
theorem run_catalog_sound (w : CatalogWorld) (age : Int) (clear_all : Bool)
    (rate_limit : Nat) (catalog : List (String × List Resource))
    (h : ∀ p ∈ enabled_specs w catalog,
      is_index_error (process_spec w age clear_all rate_limit p.1 p.2) = false) :
    (run_catalog w age clear_all rate_limit catalog).crashed = none ∧
    (run_catalog w age clear_all rate_limit catalog).processed
      = enabled_specs w catalog ∧
    ∀ p ∈ enabled_specs w catalog, ∀ n,
      process_spec w age clear_all rate_limit p.1 p.2 = Except.ok n →
      ∀ i, n.testBit i = true →
        ((run_catalog w age clear_all rate_limit catalog).err).testBit i = true := by
  induction catalog with
  | nil => exact ⟨rfl, rfl, by simp [enabled_specs]⟩
  | cons entry rest ih =>
    obtain ⟨api, rs⟩ := entry
    cases hen : w.api_enabled api with
    | false =>
      rw [enabled_specs_cons_disabled w api rs rest hen] at h ⊢
      have ihr := ih h
      simpa only [run_catalog, hen, Bool.false_eq_true, if_false] using ihr
    | true =>
      rw [enabled_specs_cons_enabled w api rs rest hen] at h ⊢
      have hspecs : ∀ r ∈ rs,
          is_index_error (process_spec w age clear_all rate_limit api r) = false := by
        intro r hmem
        exact h (api, r) (List.mem_append_left _ (List.mem_map_of_mem _ hmem))
      have hrest : ∀ p ∈ enabled_specs w rest,
          is_index_error (process_spec w age clear_all rate_limit p.1 p.2) = false := by
        intro p hmem
        exact h p (List.mem_append_right _ hmem)
      have h1 := run_specs_sound w age clear_all rate_limit api rs hspecs
      have h2 := ih hrest
      simp only [run_catalog, hen, if_true, h1.1]
      refine ⟨h2.1, by rw [h1.2.1, h2.2.1], ?_⟩
      intro p hmem n hps i hbit
      rw [Nat.testBit_lor]
      rcases List.mem_append.mp hmem with hmem | hmem
      · rcases List.mem_map.mp hmem with ⟨r, hr, rfl⟩
        rw [h1.2.2 r hr n hps i hbit]
        rfl
      · rw [h2.2.2 p hmem n hps i hbit, Bool.or_true]

/-- C6: a fatal listing or filtering failure on one spec — a non-tolerated
CalledProcessError or a ValueError, both caught by main's per-spec clause —
sets the run failure flag (bit 0 of err), and the driver still enters every
spec of every enabled API in catalog order: no such error aborts the rest. -/
theorem spec_failure_isolated (w : CatalogWorld) (age : Int) (clear_all : Bool)
    (rate_limit : Nat) (catalog : List (String × List Resource))
    (hsafe : ∀ p ∈ enabled_specs w catalog,
      is_index_error (process_spec w age clear_all rate_limit p.1 p.2) = false) :
    (run_catalog w age clear_all rate_limit catalog).crashed = none ∧
    (run_catalog w age clear_all rate_limit catalog).processed
      = enabled_specs w catalog ∧
    ((∃ p ∈ enabled_specs w catalog,
        is_caught_error (collect age p.2 clear_all (w.listing p.1 p.2)) = true) →
      Nat.testBit (run_catalog w age clear_all rate_limit catalog).err 0 = true) := by
  have hs := run_catalog_sound w age clear_all rate_limit catalog hsafe
  refine ⟨hs.1, hs.2.1, ?_⟩
  rintro ⟨p, hmem, hcaught⟩
  exact hs.2.2 p hmem 1
    (process_spec_caught w age clear_all rate_limit p.1 p.2 hcaught) 0 rfl

/-- World for the isolation witness: only the sinks listing fails. -/
def c6_world : CatalogWorld :=
  ⟨fun _ => true,
   fun _ res => if res.name = "sinks" then Except.error () else Except.ok [],
   fun _ _ _ _ => true⟩

/-- Two-API catalog slice for the isolation witness. -/
def c6_catalog : List (String × List Resource) :=
  [("logging.googleapis.com", [logging_sinks]),
   ("pubsub.googleapis.com", [pubsub_subscriptions, pubsub_topics])]

theorem spec_failure_isolated_witness :
    (run_catalog c6_world 100 true 50 c6_catalog).crashed = none ∧
    (run_catalog c6_world 100 true 50 c6_catalog).processed
      = enabled_specs c6_world c6_catalog ∧
    Nat.testBit (run_catalog c6_world 100 true 50 c6_catalog).err 0 = true := by
  have h := spec_failure_isolated c6_world 100 true 50 c6_catalog (by decide)
  exact ⟨h.1, h.2.1,
    h.2.2 ⟨("logging.googleapis.com", logging_sinks), by decide, by decide⟩⟩

/-- An Except value carrying any exception. -/
def is_error {α : Type} : Except PyErr α → Bool
  | Except.error _ => true
  | _ => false

/-- When every endpoint pass returns normally the sweep visits all endpoints
in order. -/
theorem gke_sweep_all_ok (w : ClusterWorld) (age : Int)
    (endpoints : List String)
    (h : ∀ ep ∈ endpoints, is_error (gke_endpoint_pass w age ep) = false) :
    (gke_sweep w age endpoints).visited = endpoints ∧
    (gke_sweep w age endpoints).fatal = none := by
  induction endpoints with
  | nil => exact ⟨rfl, rfl⟩
  | cons e rest ih =>
    have he := h e (List.mem_cons_self e rest)
    cases hp : gke_endpoint_pass w age e with
    | error pe => rw [hp] at he; cases he
    | ok n =>
      have ihr := ih (fun q hq => h q (List.mem_cons_of_mem _ hq))
      simp only [gke_sweep, hp]
      exact ⟨by rw [ihr.1], ihr.2⟩

/-- The first raising endpoint pass stops the sweep right there. -/
theorem gke_sweep_fatal_prefix (w : ClusterWorld) (age : Int) :
    ∀ (pre : List String) (ep : String) (post : List String) (pe : PyErr),
      (∀ q ∈ pre, is_error (gke_endpoint_pass w age q) = false) →
      gke_endpoint_pass w age ep = Except.error pe →
      (gke_sweep w age (pre ++ ep :: post)).visited = pre ++ [ep] ∧
      (gke_sweep w age (pre ++ ep :: post)).fatal = some pe := by
  intro pre
  induction pre with
  | nil =>
    intro ep post pe _ hep
    refine ⟨?_, ?_⟩ <;> simp [gke_sweep, hep]
  | cons q pre ih =>
    intro ep post pe hpre hep
    have hq := hpre q (List.mem_cons_self q pre)
    cases hp : gke_endpoint_pass w age q with
    | error pe2 => rw [hp] at hq; cases hq
    | ok n =>
      have ihr := ih ep post pe (fun x hx => hpre x (List.mem_cons_of_mem _ hx)) hep
      simp only [List.cons_append, gke_sweep, hp]
      refine ⟨?_, ihr.2⟩
      show q :: (gke_sweep w age (pre ++ ep :: post)).visited = q :: (pre ++ [ep])
      rw [ihr.1]

/-- C8 settled against the code: an unreachable listing is tolerated per
endpoint and a run of non-raising passes visits every endpoint in order; but
a malformed cluster record raises past the endpoint loop: the sweep stops at
the raising endpoint and no later endpoint is visited. -/
theorem gke_sweep_unwinding (w : ClusterWorld) (age : Int)
    (endpoints : List String) :
    (∀ ep, w.clusters ep = Except.error () →
      gke_endpoint_pass w age ep = Except.ok 0) ∧
    ((∀ ep ∈ endpoints, is_error (gke_endpoint_pass w age ep) = false) →
      (gke_sweep w age endpoints).visited = endpoints ∧
      (gke_sweep w age endpoints).fatal = none) ∧
    (∀ pre ep post pe, endpoints = pre ++ ep :: post →
      (∀ q ∈ pre, is_error (gke_endpoint_pass w age q) = false) →
      gke_endpoint_pass w age ep = Except.error pe →
      (gke_sweep w age endpoints).visited = pre ++ [ep] ∧
      (gke_sweep w age endpoints).fatal = some pe) := by
  refine ⟨?_, gke_sweep_all_ok w age endpoints, ?_⟩
  · intro ep hep
    unfold gke_endpoint_pass
    rw [hep]
  · intro pre ep post pe hsplit hpre hep
    subst hsplit
    exact gke_sweep_fatal_prefix w age pre ep post pe hpre hep

/-- World with one malformed cluster record (no zone and no region) at the
first endpoint. -/
def c8_world : ClusterWorld :=
  ⟨fun e => if e = "https://test-container.sandbox.googleapis.com/" then
      Except.ok [⟨some "leaked", some 0, none, none⟩]
    else Except.ok [],
   fun _ _ => true⟩

theorem gke_malformed_not_isolated :
    (gke_sweep c8_world 100 gke_endpoints).fatal = some PyErr.valueError ∧
    (gke_sweep c8_world 100 gke_endpoints).visited
      = ["https://test-container.sandbox.googleapis.com/"] ∧
    (gke_sweep c8_world 100 gke_endpoints).visited ≠ gke_endpoints := by
  exact ⟨rfl, rfl, by decide⟩

/-- World where the second endpoint is unreachable and the others list one
well-formed stale cluster. -/
def c8_witness_world : ClusterWorld :=
  ⟨fun e => if e = "https://staging-container.sandbox.googleapis.com/" then
      Except.error ()
    else Except.ok [⟨some "old-cluster", some 0, some "us-central1-a", none⟩],
   fun _ _ => true⟩

theorem gke_sweep_unwinding_witness :
    gke_endpoint_pass c8_witness_world 100
      "https://staging-container.sandbox.googleapis.com/" = Except.ok 0 ∧
    (gke_sweep c8_witness_world 100 gke_endpoints).visited = gke_endpoints ∧
    (gke_sweep c8_witness_world 100 gke_endpoints).fatal = none := by
  have h := gke_sweep_unwinding c8_witness_world 100 gke_endpoints
  refine ⟨h.1 "https://staging-container.sandbox.googleapis.com/" rfl, ?_, ?_⟩
  · exact (h.2.1 (by decide)).1
  · exact (h.2.1 (by decide)).2

/-- Minimal catalog slice for the whole-run demonstrations. -/
def demo_catalog : List (String × List Resource) :=
  [("pubsub.googleapis.com", [pubsub_subscriptions])]

/-- World in which the initial subnet listing call fails like
subprocess.CalledProcessError. -/
def c7_world : MainWorld :=
  ⟨⟨Except.error (), fun _ _ => Except.error (), fun _ _ => true⟩,
   ⟨fun _ => Except.ok [], fun _ _ => true⟩,
   ⟨fun _ => true, fun _ _ => Except.ok [], fun _ _ _ _ => true⟩⟩

/-- Same run but the subnet listing succeeds with one malformed record
(missing region key), which raises ValueError instead. -/
def c7_value_error_world : MainWorld :=
  ⟨⟨Except.ok [⟨some "subnet-a", none⟩], fun _ _ => Except.error (),
    fun _ _ => true⟩,
   ⟨fun _ => Except.ok [], fun _ _ => true⟩,
   ⟨fun _ => true, fun _ _ => Except.ok [], fun _ _ _ _ => true⟩⟩

/-- C7 evaluated at the failing input: the CalledProcessError of a failed
initial subnet listing is re-raised (the code logs the word continue and
then raises) and main catches only ValueError, so the run crashes before the
cluster sweep and the catalog loop ever execute; a ValueError inside the
cleaner, by contrast, is logged only and the run proceeds to a normal exit. -/
theorem subnet_listing_failure_aborts_run :
    clean_secondary_ip_ranges c7_world.subnets
      = Except.error PyErr.calledProcessError ∧
    (main_model c7_world demo_catalog 100 false 50).cluster_sweep_ran = false ∧
    (main_model c7_world demo_catalog 100 false 50).processed = [] ∧
    (main_model c7_world demo_catalog 100 false 50).result
      = RunResult.crashed PyErr.calledProcessError ∧
    clean_secondary_ip_ranges c7_value_error_world.subnets
      = Except.error PyErr.valueError ∧
    (main_model c7_value_error_world demo_catalog 100 false 50).cluster_sweep_ran
      = true ∧
    (main_model c7_value_error_world demo_catalog 100 false 50).result
      = RunResult.exited 0 :=
  ⟨rfl, rfl, rfl, rfl, rfl, rfl, rfl⟩

/-- 256 stale listed records, all named t. -/
def c9_items : List RawItem :=
  List.replicate 256 ⟨some "t", none, some 0, none, none, none⟩

/-- World whose every deletion call fails, with one bulk non-tolerant spec
listing 256 stale items, so that at rate limit 1 the spec accumulates exactly
256 deletion failures. -/
def c9_world : MainWorld :=
  ⟨⟨Except.ok [], fun _ _ => Except.error (), fun _ _ => true⟩,
   ⟨fun _ => Except.ok [], fun _ _ => true⟩,
   ⟨fun _ => true, fun _ _ => Except.ok c9_items, fun _ _ _ _ => false⟩⟩

/-- One-spec catalog for the exit-status counterexample. -/
def c9_catalog : List (String × List Resource) :=
  [("pubsub.googleapis.com", [pubsub_subscriptions])]

set_option maxRecDepth 8192 in
/-- C9 refuted at a concrete run: one spec suffers 256 non-tolerated deletion
failures, err accumulates to 256, and sys.exit(256) delivers exit status
256 % 256 = 0 to the operating system although failures occurred. -/
theorem exit_status_zero_despite_failures :
    process_spec c9_world.catalog_world 100 false 1 "pubsub.googleapis.com"
      pubsub_subscriptions = Except.ok 256 ∧
    (main_model c9_world c9_catalog 100 false 1).err_value = 256 ∧
    (main_model c9_world c9_catalog 100 false 1).result = RunResult.exited 0 :=
  ⟨rfl, rfl, rfl⟩

/-- An OR-accumulated Nat is zero exactly when both contributions are. -/
theorem nat_lor_eq_zero_iff (x y : Nat) : x ||| y = 0 ↔ x = 0 ∧ y = 0 := by
  constructor
  · intro h
    constructor
    · exact Nat.eq_of_testBit_eq (fun i => by
        have hb := congrArg (fun n => Nat.testBit n i) h
        simp [Nat.testBit_lor] at hb
        simp [hb.1])
    · exact Nat.eq_of_testBit_eq (fun i => by
        have hb := congrArg (fun n => Nat.testBit n i) h
        simp [Nat.testBit_lor] at hb
        simp [hb.2])
  · rintro ⟨rfl, rfl⟩; rfl

/-- With no uncaught exception, the err of the inner spec loop is zero
exactly when every processed spec contributed zero. -/
theorem run_specs_err_zero (w : CatalogWorld) (age : Int) (clear_all : Bool)
    (rate_limit : Nat) (api : String) (rs : List Resource)
    (h : (run_specs w age clear_all rate_limit api rs).crashed = none) :
    ((run_specs w age clear_all rate_limit api rs).err = 0 ↔
      ∀ p ∈ (run_specs w age clear_all rate_limit api rs).processed,
        process_spec w age clear_all rate_limit p.1 p.2 = Except.ok 0) := by
  induction rs with
  | nil => simp [run_specs]
  | cons r rest ih =>
    cases hps : process_spec w age clear_all rate_limit api r with
    | error e => simp only [run_specs, hps] at h; cases h
    | ok n =>
      simp only [run_specs, hps] at h ⊢
      rw [nat_lor_eq_zero_iff, ih h]
      constructor
      · rintro ⟨hn, hall⟩ p hp
        rcases List.mem_cons.mp hp with rfl | hp
        · rw [hps, hn]
        · exact hall p hp
      · intro hall
        constructor
        · have := hall (api, r) (List.mem_cons_self _ _)
          rw [hps] at this
          injection this
        · exact fun p hp => hall p (List.mem_cons_of_mem _ hp)

/-- With no uncaught exception, the err of the catalog loop is zero exactly
when every processed spec contributed zero. -/
theorem run_catalog_err_zero (w : CatalogWorld) (age : Int) (clear_all : Bool)
    (rate_limit : Nat) (catalog : List (String × List Resource))
    (h : (run_catalog w age clear_all rate_limit catalog).crashed = none) :
    ((run_catalog w age clear_all rate_limit catalog).err = 0 ↔
      ∀ p ∈ (run_catalog w age clear_all rate_limit catalog).processed,
        process_spec w age clear_all rate_limit p.1 p.2 = Except.ok 0) := by
  induction catalog with
  | nil => simp [run_catalog]
  | cons entry rest ih =>
    obtain ⟨api, rs⟩ := entry
    cases hen : w.api_enabled api with
    | false =>
      simp only [run_catalog, hen, Bool.false_eq_true, if_false] at h ⊢
      exact ih h
    | true =>
      simp only [run_catalog, hen, if_true] at h ⊢
      split at h
      · rename_i e heq
        rw [heq] at h
        cases h
      · rename_i heq
        simp only [heq]
        show (run_specs w age clear_all rate_limit api rs).err |||
            (run_catalog w age clear_all rate_limit rest).err = 0 ↔
          ∀ p ∈ (run_specs w age clear_all rate_limit api rs).processed ++
              (run_catalog w age clear_all rate_limit rest).processed,
            process_spec w age clear_all rate_limit p.1 p.2 = Except.ok 0
        rw [nat_lor_eq_zero_iff, run_specs_err_zero w age clear_all rate_limit api rs heq,
            ih h]
        constructor
        · rintro ⟨h1, h2⟩ p hp
          rcases List.mem_append.mp hp with hp | hp
          · exact h1 p hp
          · exact h2 p hp
        · intro hall
          exact ⟨fun p hp => hall p (List.mem_append_left _ hp),
                 fun p hp => hall p (List.mem_append_right _ hp)⟩

/-- When the subnet cleaner does not crash the run, main proceeds to the
cluster sweep. -/
theorem main_model_reaches_gke (w : MainWorld)
    (catalog : List (String × List Resource)) (age : Int) (clear_all : Bool)
    (rate_limit : Nat)
    (hsub : clean_secondary_ip_ranges w.subnets = Except.ok () ∨
            clean_secondary_ip_ranges w.subnets = Except.error PyErr.valueError) :
    main_model w catalog age clear_all rate_limit
      = main_gke_phase w catalog age clear_all rate_limit := by
  unfold main_model
  rcases hsub with h | h <;> rw [h]

/-- When the catalog loop does not crash, the catalog phase ends in
sys.exit of the OR-accumulated err, delivered mod 256. -/
theorem main_catalog_phase_exit (w : MainWorld)
    (catalog : List (String × List Resource)) (age : Int) (clear_all : Bool)
    (rate_limit : Nat) (err0 : Nat) (visited : List String)
    (hcat : (run_catalog w.catalog_world age clear_all rate_limit catalog).crashed
              = none) :
    main_catalog_phase w catalog age clear_all rate_limit err0 visited
      = ⟨true, visited,
         (run_catalog w.catalog_world age clear_all rate_limit catalog).processed,
         err0 ||| (run_catalog w.catalog_world age clear_all rate_limit catalog).err,
         RunResult.exited
           ((err0 |||
             (run_catalog w.catalog_world age clear_all rate_limit catalog).err)
             % 256)⟩ := by
  simp only [main_catalog_phase]
  split
  · rename_i e heq
    rw [hcat] at heq
    cases heq
  · rfl

/-- A fatal-free cluster sweep folds its boolean failure indicator into err
and continues into the catalog phase. -/
theorem main_gke_phase_none (w : MainWorld)
    (catalog : List (String × List Resource)) (age : Int) (clear_all : Bool)
    (rate_limit : Nat)
    (hf : (gke_sweep w.gke age gke_endpoints).fatal = none) :
    main_gke_phase w catalog age clear_all rate_limit
      = main_catalog_phase w catalog age clear_all rate_limit
          (0 ||| (if (gke_sweep w.gke age gke_endpoints).errs > 0 then 1 else 0))
          (gke_sweep w.gke age gke_endpoints).visited := by
  unfold main_gke_phase
  rw [hf]

/-- A ValueError escaping the cluster sweep is caught by main, contributes
err |= 1 and the catalog phase still runs. -/
theorem main_gke_phase_valueError (w : MainWorld)
    (catalog : List (String × List Resource)) (age : Int) (clear_all : Bool)
    (rate_limit : Nat)
    (hf : (gke_sweep w.gke age gke_endpoints).fatal = some PyErr.valueError) :
    main_gke_phase w catalog age clear_all rate_limit
      = main_catalog_phase w catalog age clear_all rate_limit (0 ||| 1)
          (gke_sweep w.gke age gke_endpoints).visited := by
  unfold main_gke_phase
  rw [hf]

/-- C9 amended: the exit status is err % 256 where err is the bitwise OR of
the cluster-sweep failure indicator and every spec's contribution (1 for a
caught listing or filtering error, the deletion-failure count otherwise);
err is 0 exactly when no non-tolerated failure occurred anywhere, so the
status is 0 on full success and non-zero on failure except when every set
bit of err lies at position 8 or above, as with exactly 256 failed deletions
in one spec. -/
theorem exit_status_contract (w : MainWorld)
    (catalog : List (String × List Resource)) (age : Int) (clear_all : Bool)
    (rate_limit : Nat)
    (hsub : clean_secondary_ip_ranges w.subnets = Except.ok () ∨
            clean_secondary_ip_ranges w.subnets = Except.error PyErr.valueError)
    (hgke : (gke_sweep w.gke age gke_endpoints).fatal = none ∨
            (gke_sweep w.gke age gke_endpoints).fatal = some PyErr.valueError)
    (hcat : (run_catalog w.catalog_world age clear_all rate_limit catalog).crashed
              = none) :
    (main_model w catalog age clear_all rate_limit).result
      = RunResult.exited
          ((main_model w catalog age clear_all rate_limit).err_value % 256) ∧
    ((main_model w catalog age clear_all rate_limit).err_value = 0 ↔
      ((gke_sweep w.gke age gke_endpoints).fatal = none ∧
       (gke_sweep w.gke age gke_endpoints).errs = 0 ∧
       ∀ p ∈ (run_catalog w.catalog_world age clear_all rate_limit catalog).processed,
         process_spec w.catalog_world age clear_all rate_limit p.1 p.2
           = Except.ok 0)) := by
  rw [main_model_reaches_gke w catalog age clear_all rate_limit hsub]
  rcases hgke with hf | hf
  case inl =>
    rw [main_gke_phase_none w catalog age clear_all rate_limit hf,
        main_catalog_phase_exit w catalog age clear_all rate_limit _ _ hcat]
    refine ⟨rfl, ?_⟩
    show (0 ||| (if (gke_sweep w.gke age gke_endpoints).errs > 0 then 1 else 0)) |||
        (run_catalog w.catalog_world age clear_all rate_limit catalog).err = 0 ↔ _
    rw [Nat.zero_or, nat_lor_eq_zero_iff,
        run_catalog_err_zero w.catalog_world age clear_all rate_limit catalog hcat]
    constructor
    · rintro ⟨h1, h2⟩
      refine ⟨hf, ?_, h2⟩
      by_cases he : (gke_sweep w.gke age gke_endpoints).errs > 0
      · rw [if_pos he] at h1; cases h1
      · omega
    · rintro ⟨-, h1, h2⟩
      rw [h1]
      exact ⟨rfl, h2⟩
  case inr =>
    rw [main_gke_phase_valueError w catalog age clear_all rate_limit hf,
        main_catalog_phase_exit w catalog age clear_all rate_limit _ _ hcat]
    refine ⟨rfl, ?_⟩
    constructor
    · intro h
      exfalso
      have h2 := (nat_lor_eq_zero_iff _ _).mp h
      cases h2.1
    · rintro ⟨h1, -⟩
      rw [hf] at h1
      cases h1

/-- World with a single stale item whose deletion fails. -/
def c9_witness_world : MainWorld :=
  ⟨⟨Except.ok [], fun _ _ => Except.error (), fun _ _ => true⟩,
   ⟨fun _ => Except.ok [], fun _ _ => true⟩,
   ⟨fun _ => true,
    fun _ _ => Except.ok [⟨some "old", none, some 0, none, none, none⟩],
    fun _ _ _ _ => false⟩⟩

theorem exit_status_contract_witness :
    (main_model c9_witness_world demo_catalog 100 false 50).err_value = 1 ∧
    (main_model c9_witness_world demo_catalog 100 false 50).result
      = RunResult.exited
          ((main_model c9_witness_world demo_catalog 100 false 50).err_value
            % 256) :=
  ⟨rfl,
   (exit_status_contract c9_witness_world demo_catalog 100 false 50
      (Or.inl rfl) (Or.inl rfl) rfl).1⟩
